import Mathlib

/-!
Verification of the noxcf-gimp preview/compositing core.

Shallow embedding of `app/core/gimpimagemap.c` and `app/core/gimpdrawable.c`.
Pixels are opaque values (`Int`); buffers are pixel-format-tagged 2-D arrays
addressed by integer coordinates, modelled as total functions so that
pointwise ("bit-for-bit") statements are direct.  GEGL primitives
(`gegl_buffer_copy`, `gegl_buffer_sample`, `gegl_buffer_new`) are external
library calls modelled by their documented contract; repository code that is
not part of the embedded sources is modelled from the specification and
marked as such in its doc comment.
-/

/-- A pixel value.  Pixel contents are opaque to this core (spec:
"buffers are treated as opaque pixel-format-tagged 2-D arrays"). -/
abbrev Pixel := Int

/-- GeglRectangle: x, y, width, height (gint fields in C). -/
structure GeglRectangle where
  x : Int
  y : Int
  width : Int
  height : Int
deriving DecidableEq

/-- Membership of a point in a rectangle. -/
def inRect (r : GeglRectangle) (px py : Int) : Prop :=
  r.x ≤ px ∧ px < r.x + r.width ∧ r.y ≤ py ∧ py < r.y + r.height

instance (r : GeglRectangle) (px py : Int) : Decidable (inRect r px py) := by
  unfold inRect; exact inferInstance

/-- Rectangle `a` lies entirely inside rectangle `b`. -/
def rectInside (a b : GeglRectangle) : Prop :=
  b.x ≤ a.x ∧ a.x + a.width ≤ b.x + b.width ∧
  b.y ≤ a.y ∧ a.y + a.height ≤ b.y + b.height

instance (a b : GeglRectangle) : Decidable (rectInside a b) := by
  unfold rectInside; exact inferInstance

/-- GeglBuffer: a pixel-format-tagged 2-D array.  The `data` function gives
the pixel at each coordinate; the buffer's own extent starts at (0,0). -/
structure GeglBuffer where
  width : Int
  height : Int
  format : Nat
  data : Int → Int → Pixel

/-- gegl_buffer_new (external GEGL): fresh zero-initialized buffer of the
given size and format. -/
def gegl_buffer_new (width height : Int) (format : Nat) : GeglBuffer :=
  { width := width, height := height, format := format, data := fun _ _ => 0 }

/-- gegl_buffer_copy (external GEGL): copies the pixels of `srcRect` in `src`
into `dst` with the copied block's top-left landing at `(dstX, dstY)`
(GIMP always passes a destination rectangle whose width/height are ignored
by GEGL; only its origin matters).  All uses in the embedded code stay in
bounds, so abyss clipping is not modelled. -/
def gegl_buffer_copy (src : GeglBuffer) (srcRect : GeglRectangle)
    (dst : GeglBuffer) (dstX dstY : Int) : GeglBuffer :=
  { dst with data := fun px py =>
      if dstX ≤ px ∧ px < dstX + srcRect.width ∧
         dstY ≤ py ∧ py < dstY + srcRect.height then
        src.data (srcRect.x + (px - dstX)) (srcRect.y + (py - dstY))
      else dst.data px py }

/-- gegl_buffer_sample with GEGL_SAMPLER_NEAREST at integer coordinates
(external GEGL): nearest-neighbor point sampling is the identity there. -/
def gegl_buffer_sample (b : GeglBuffer) (px py : Int) : Pixel :=
  b.data px py

/-- A floating-selection layer (the "overlay"): geometry, blend mode,
opacity, and whether its own graph has a layer_offset_node. -/
structure GimpLayer where
  offset_x : Int
  offset_y : Int
  width : Int
  height : Int
  mode : Nat
  opacity : Int
  layer_offset_node : Bool
deriving DecidableEq

/-- One record handed to the undo system: (description, snapshot buffer,
anchor point), per the external undo-system contract. -/
structure UndoRecord where
  desc : String
  buffer : GeglBuffer
  x : Int
  y : Int

/-- The owning image, as seen by this core: selection-mask state (emptiness,
per-pixel coverage, bounding box in drawable-local coordinates), the
floating-selection reference, and the undo stack. -/
structure GimpImage where
  mask_empty : Bool
  sel : Int → Int → Bool
  sel_x : Int
  sel_y : Int
  sel_width : Int
  sel_height : Int
  floating_selection : Option GimpLayer
  undo_stack : List UndoRecord

/-- Source feeding a pad of the drawable's item node. -/
inductive PadSrc where
  | inputProxy
  | modeNode
deriving DecidableEq

/-- Topology of a drawable's item node graph: what feeds the mode node's
input pad and what feeds the output proxy's input pad. -/
structure ItemNode where
  mode_input : Option PadSrc
  output_input : Option PadSrc
deriving DecidableEq

/-- Parameters of the floating-selection node triple
(fs_crop_node, fs_offset_node, fs_mode_node) inside the source node graph. -/
structure FsNodes where
  crop_x : Int
  crop_y : Int
  crop_width : Int
  crop_height : Int
  off_x : Int
  off_y : Int
  mode : Nat
  opacity : Int
deriving DecidableEq

/-- The drawable's source node graph: the optional floating-selection node
triple, and whether the output proxy is fed by fs_mode_node (`true`) or
directly by buffer_source_node (`false`). -/
structure SourceNode where
  fs_nodes : Option FsNodes
  output_from_fs : Bool
deriving DecidableEq

/-- A drawable: its backing buffer, offset in image space, attachment and
visibility state, owning image, optional bound floating selection, and the
two lazily built node graphs. -/
structure GimpDrawable where
  buffer : GeglBuffer
  offset_x : Int
  offset_y : Int
  attached : Bool
  visible : Bool
  image : GimpImage
  floating_sel : Option GimpLayer
  source_node : Option SourceNode
  node : Option ItemNode

/-- Modelled from the spec: gimp_rectangle_intersect (app/core/gimp-utils.c,
not under src/) intersects two rectangles, returning the intersection when
it has positive width and height and nothing otherwise. -/
def gimp_rectangle_intersect (x1 y1 w1 h1 x2 y2 w2 h2 : Int) :
    Option GeglRectangle :=
  let nx := max x1 x2
  let ny := max y1 y2
  let nw := min (x1 + w1) (x2 + w2) - nx
  let nh := min (y1 + h1) (y2 + h2) - ny
  if 0 < nw ∧ 0 < nh then some ⟨nx, ny, nw, nh⟩ else none

/-- Modelled from the spec: gimp_item_mask_intersect (app/core/gimpitem.c,
not under src/) clamps to "the intersection of the drawable's bounds and
the active selection's bounding box"; with no active selection the full
drawable bounds are used; an empty intersection yields nothing. -/
def gimp_item_mask_intersect (d : GimpDrawable) : Option GeglRectangle :=
  if d.image.mask_empty then
    some ⟨0, 0, d.buffer.width, d.buffer.height⟩
  else
    gimp_rectangle_intersect 0 0 d.buffer.width d.buffer.height
      d.image.sel_x d.image.sel_y d.image.sel_width d.image.sel_height

/-- gimp_drawable_get_format: the format of the drawable's buffer. -/
def gimp_drawable_get_format (d : GimpDrawable) : Nat :=
  d.buffer.format

/-- gimp_drawable_get_pixel_at (gimpdrawable.c): out-of-bounds coordinates
yield no pixel; in-bounds coordinates sample the buffer. -/
def gimp_drawable_get_pixel_at (d : GimpDrawable) (px py : Int) :
    Option Pixel :=
  if px < 0 ∨ px ≥ d.buffer.width ∨ py < 0 ∨ py ≥ d.buffer.height then
    none
  else
    some (gegl_buffer_sample d.buffer px py)

/-- Selection coverage of a pixel for compositing purposes: with an empty
selection mask nothing restricts the operation; otherwise the selection's
per-pixel coverage decides. -/
def selCovers (img : GimpImage) (px py : Int) : Prop :=
  img.mask_empty = true ∨ img.sel px py = true

instance (img : GimpImage) (px py : Int) : Decidable (selCovers img px py) := by
  unfold selCovers; exact inferInstance

/-- Modelled from the spec: the replace-mode implementation behind
gimp_drawable_apply_buffer (app/core/gimpdrawable-combine.c, not under
src/).  Per the spec, the source region is "alpha-composed onto the
drawable at full opacity, replace-mode, restricted to the chunk rectangle"
and to selected pixels; unselected pixels are left untouched.  The
dispatcher's attachment precondition (gimpdrawable.c line 1194) makes the
call a no-op on a detached drawable. -/
def gimp_drawable_apply_buffer (d : GimpDrawable) (src : GeglBuffer)
    (region : GeglRectangle) (baseX baseY : Int) : GimpDrawable :=
  if ¬ d.attached then d
  else
    let newData : Int → Int → Pixel := fun px py =>
      if (baseX ≤ px ∧ px < baseX + region.width ∧
          baseY ≤ py ∧ py < baseY + region.height) ∧
         selCovers d.image px py then
        src.data (region.x + (px - baseX)) (region.y + (py - baseY))
      else d.buffer.data px py
    { d with buffer := { d.buffer with data := newData } }

/-- gimp_drawable_real_push_undo (gimpdrawable.c): with no buffer supplied
the region is copied out of the drawable first; the record then goes to the
undo system (gimp_image_undo_push_drawable, modelled from the spec's undo
contract as pushing onto the image's undo stack). -/
def gimp_drawable_real_push_undo (d : GimpDrawable) (desc : String)
    (buffer : Option GeglBuffer) (x y width height : Int) : GimpDrawable :=
  let buf :=
    match buffer with
    | none =>
        gegl_buffer_copy d.buffer ⟨x, y, width, height⟩
          (gegl_buffer_new width height d.buffer.format) 0 0
    | some b => b
  { d with image := { d.image with
      undo_stack := ⟨desc, buf, x, y⟩ :: d.image.undo_stack } }

/-- gimp_drawable_push_undo (gimpdrawable.c): requires attachment; with no
buffer, an empty intersection with the drawable's bounds is warned about
and dropped; otherwise the (clipped) region is pushed. -/
def gimp_drawable_push_undo (d : GimpDrawable) (desc : String)
    (buffer : Option GeglBuffer) (x y width height : Int) : GimpDrawable :=
  if ¬ d.attached then d
  else
    match buffer with
    | none =>
        match gimp_rectangle_intersect x y width height
            0 0 d.buffer.width d.buffer.height with
        | none => d
        | some r => gimp_drawable_real_push_undo d desc none r.x r.y r.width r.height
    | some b => gimp_drawable_real_push_undo d desc (some b) x y width height

/-- Topology built by gimp_drawable_get_node (gimpdrawable.c): when visible,
input proxy → mode node → output proxy; when invisible, input proxy wired
straight to the output proxy. -/
def gimp_drawable_node_topology (visible : Bool) : ItemNode :=
  if visible then
    { mode_input := some PadSrc.inputProxy, output_input := some PadSrc.modeNode }
  else
    { mode_input := none, output_input := some PadSrc.inputProxy }

/-- gimp_drawable_visibility_changed (gimpdrawable.c): with an instantiated
node graph, becoming visible wires input → mode node → output; becoming
invisible disconnects the mode node's input and wires input directly to
output.  Without a node graph nothing topological happens. -/
def gimp_drawable_visibility_changed (d : GimpDrawable) : GimpDrawable :=
  match d.node with
  | none => d
  | some _ =>
      if d.visible then
        let n : ItemNode :=
          { mode_input := some PadSrc.inputProxy,
            output_input := some PadSrc.modeNode }
        { d with node := some n }
      else
        let n : ItemNode :=
          { mode_input := none,
            output_input := some PadSrc.inputProxy }
        { d with node := some n }

/-- Modelled from the spec: gimp_item_set_visible (app/core/gimpitem.c, not
under src/) stores the flag and emits "visibility-changed", which the
drawable class handles with gimp_drawable_visibility_changed. -/
def gimp_item_set_visible (d : GimpDrawable) (v : Bool) : GimpDrawable :=
  gimp_drawable_visibility_changed { d with visible := v }

/-- gimp_drawable_sync_source_node (gimpdrawable.c): with a floating
selection bound and not detaching, the fs node triple is (created if absent
and) parameterized — crop at (off_x − fs_off_x, off_y − fs_off_y) sized to
the drawable, translate by (fs_off_x − off_x, fs_off_y − off_y), mode node
mirroring the layer's mode and opacity — and fs_mode_node feeds the output
proxy.  Otherwise the triple is torn down and buffer_source_node feeds the
output proxy directly. -/
def gimp_drawable_sync_source_node (d : GimpDrawable) (detach_fs : Bool) :
    GimpDrawable :=
  match d.source_node with
  | none => d
  | some _ =>
      match d.floating_sel with
      | some fs =>
          if detach_fs then
            { d with source_node := some { fs_nodes := none, output_from_fs := false } }
          else
            let fsn : FsNodes :=
              { crop_x := d.offset_x - fs.offset_x,
                crop_y := d.offset_y - fs.offset_y,
                crop_width := d.buffer.width,
                crop_height := d.buffer.height,
                off_x := fs.offset_x - d.offset_x,
                off_y := fs.offset_y - d.offset_y,
                mode := fs.mode,
                opacity := fs.opacity }
            { d with source_node := some { fs_nodes := some fsn, output_from_fs := true } }
      | none =>
          { d with source_node := some { fs_nodes := none, output_from_fs := false } }

/-- gimp_drawable_get_floating_sel (gimpdrawable.c). -/
def gimp_drawable_get_floating_sel (d : GimpDrawable) : Option GimpLayer :=
  d.floating_sel

/-- gimp_drawable_attach_floating_sel (gimpdrawable.c): preconditions
(attachment, no floating selection already bound) abort the call before any
mutation; otherwise the binding and the image's floating-selection
reference are set and the source node graph is synced. -/
def gimp_drawable_attach_floating_sel (d : GimpDrawable) (fs : GimpLayer) :
    GimpDrawable :=
  if ¬ d.attached then d
  else if (gimp_drawable_get_floating_sel d).isSome then d
  else
    let d' := { d with
      floating_sel := some fs,
      image := { d.image with floating_selection := some fs } }
    gimp_drawable_sync_source_node d' false

/-- gimp_drawable_detach_floating_sel (gimpdrawable.c): requires a bound
floating selection; syncs with detach_fs set, then clears the image's
reference and the binding. -/
def gimp_drawable_detach_floating_sel (d : GimpDrawable) : GimpDrawable :=
  match d.floating_sel with
  | none => d
  | some _ =>
      let d' := gimp_drawable_sync_source_node d true
      { d' with
        floating_sel := none,
        image := { d'.image with floating_selection := none } }

/-- Crop-node origin of the fs triple, when instantiated. -/
def GimpDrawable.fsCropOrigin (d : GimpDrawable) : Option (Int × Int) :=
  match d.source_node with
  | some sn =>
      match sn.fs_nodes with
      | some f => some (f.crop_x, f.crop_y)
      | none => none
  | none => none

/-- Crop-node size of the fs triple, when instantiated. -/
def GimpDrawable.fsCropSize (d : GimpDrawable) : Option (Int × Int) :=
  match d.source_node with
  | some sn =>
      match sn.fs_nodes with
      | some f => some (f.crop_width, f.crop_height)
      | none => none
  | none => none

/-- Translate-node parameters of the fs triple, when instantiated. -/
def GimpDrawable.fsTranslate (d : GimpDrawable) : Option (Int × Int) :=
  match d.source_node with
  | some sn =>
      match sn.fs_nodes with
      | some f => some (f.off_x, f.off_y)
      | none => none
  | none => none

/-- One completed chunk of incremental filter work: the rectangle carried by
the write-sink's "computed" signal together with the state of the
drawable's shadow buffer (the external GEGL filter's output) at that
moment. -/
structure Chunk where
  shadow : GeglBuffer
  extent : GeglRectangle

/-- GimpImageMap (gimpimagemap.c): the preview session state — target
drawable, undo description, snapshot ("undo") buffer with its anchor,
scheduled-idle flag, the processor's region, the chunks the processor has
yet to deliver, and the warnings emitted so far. -/
structure GimpImageMap where
  drawable : GimpDrawable
  undo_desc : String
  undo_buffer : Option GeglBuffer
  undo_offset_x : Int
  undo_offset_y : Int
  idle_id : Bool
  proc_rect : Option GeglRectangle
  pending : List Chunk
  messages : List String

/-- gimp_image_map_stop_idle (gimpimagemap.c): with an idle source
scheduled, removes it and releases the processor; otherwise does
nothing. -/
def gimp_image_map_stop_idle (m : GimpImageMap) : GimpImageMap :=
  if m.idle_id then
    { m with idle_id := false, proc_rect := none, pending := [] }
  else m

/-- gimp_image_map_update_undo_buffer (gimpimagemap.c): (re)allocates the
snapshot buffer when it is missing or its size differs from `rect`'s, then
copies the drawable's pixels in `rect` into it and records `rect`'s origin
as the anchor; when buffer, origin and size all already match, nothing is
copied. -/
def gimp_image_map_update_undo_buffer (m : GimpImageMap)
    (rect : GeglRectangle) : GimpImageMap :=
  match m.undo_buffer with
  | none =>
      let buf := gegl_buffer_new rect.width rect.height
        (gimp_drawable_get_format m.drawable)
      let buf := gegl_buffer_copy m.drawable.buffer rect buf 0 0
      { m with undo_buffer := some buf,
               undo_offset_x := rect.x, undo_offset_y := rect.y }
  | some ub =>
      if m.undo_offset_x ≠ rect.x ∨ m.undo_offset_y ≠ rect.y ∨
         ub.width ≠ rect.width ∨ ub.height ≠ rect.height then
        let buf :=
          if ub.width ≠ rect.width ∨ ub.height ≠ rect.height then
            gegl_buffer_new rect.width rect.height
              (gimp_drawable_get_format m.drawable)
          else ub
        let buf := gegl_buffer_copy m.drawable.buffer rect buf 0 0
        { m with undo_buffer := some buf,
                 undo_offset_x := rect.x, undo_offset_y := rect.y }
      else m

/-- gimp_image_map_apply (gimpimagemap.c): stops any running idle work,
returns if the drawable is detached or the selection-clamped region is
empty, otherwise refreshes the snapshot buffer, parameterizes the graph and
creates a processor for the region, and schedules the idle worker.  The
`visible` rectangle argument is part of the C signature but never read.
`plan` is the chunk schedule the external GEGL processor will deliver for
the region. -/
def gimp_image_map_apply (m : GimpImageMap) (plan : List Chunk)
    (visible : GeglRectangle) : GimpImageMap :=
  let m := gimp_image_map_stop_idle m
  if ¬ m.drawable.attached then m
  else
    match gimp_item_mask_intersect m.drawable with
    | none => m
    | some rect =>
        let m := gimp_image_map_update_undo_buffer m rect
        { m with proc_rect := some rect, pending := plan, idle_id := true }

/-- gimp_image_map_data_written (gimpimagemap.c): on a completed chunk,
with a non-empty selection the snapshot pixels for the chunk rectangle are
first copied back over the drawable; then the shadow buffer's content for
the chunk is applied at full opacity in replace mode (restricted by the
selection).  The snapshot buffer is non-null whenever this signal fires
(the C code dereferences it unconditionally in the non-empty case). -/
def gimp_image_map_data_written (m : GimpImageMap) (c : Chunk) :
    GimpImageMap :=
  let m :=
    if m.drawable.image.mask_empty then m
    else
      match m.undo_buffer with
      | none => m
      | some ub =>
          let srcRect : GeglRectangle :=
            ⟨c.extent.x - m.undo_offset_x, c.extent.y - m.undo_offset_y,
             c.extent.width, c.extent.height⟩
          let buf := gegl_buffer_copy ub srcRect m.drawable.buffer
            c.extent.x c.extent.y
          { m with drawable := { m.drawable with buffer := buf } }
  let d2 := gimp_drawable_apply_buffer m.drawable c.shadow c.extent
    c.extent.x c.extent.y
  { m with drawable := d2 }

/-- gimp_image_map_do (gimpimagemap.c): one idle callback.  On a detached
drawable the idle source and processor are dropped and work stops.
Otherwise one bounded unit of processor work runs (delivering one chunk via
the "computed" signal); when no work remains the processor is released and
the idle source removed.  Returns the new state and whether more work
remains. -/
def gimp_image_map_do (m : GimpImageMap) : GimpImageMap × Bool :=
  if ¬ m.drawable.attached then
    ({ m with idle_id := false, proc_rect := none, pending := [] }, false)
  else
    match m.pending with
    | [] => ({ m with idle_id := false, proc_rect := none }, false)
    | c :: rest =>
        let m' := { gimp_image_map_data_written m c with pending := rest }
        if rest.isEmpty then
          ({ m' with idle_id := false, proc_rect := none }, false)
        else (m', true)

/-- `k` invocations of the idle callback (the host event loop driving
gimp_image_map_do). -/
def gimp_image_map_doN : Nat → GimpImageMap → GimpImageMap
  | 0, m => m
  | Nat.succ k, m => gimp_image_map_doN k (gimp_image_map_do m).1

/-- Fuel-indexed unfolding of commit's `while (gimp_image_map_do (...));`
drain loop. -/
def gimp_image_map_drain_fuel : Nat → GimpImageMap → GimpImageMap
  | 0, m => m
  | Nat.succ k, m =>
      let r := gimp_image_map_do m
      if r.2 then gimp_image_map_drain_fuel k r.1 else r.1

/-- The drain loop of gimp_image_map_commit: runs gimp_image_map_do until
it reports no more work.  One pending chunk is consumed per true step, so
`pending.length + 1` units of fuel always reach the terminating call. -/
def gimp_image_map_drain (m : GimpImageMap) : GimpImageMap :=
  gimp_image_map_drain_fuel (m.pending.length + 1) m

/-- gimp_image_map_commit (gimpimagemap.c): with the idle worker scheduled,
unschedules it and synchronously drains all remaining work; then, if the
drawable is still attached and a snapshot buffer exists, pushes an undo
record for the snapshot at its anchor and releases the snapshot. -/
def gimp_image_map_commit (m : GimpImageMap) : GimpImageMap :=
  let m :=
    if m.idle_id then gimp_image_map_drain { m with idle_id := false }
    else m
  if ¬ m.drawable.attached then m
  else
    match m.undo_buffer with
    | none => m
    | some ub =>
        let d := gimp_drawable_push_undo m.drawable m.undo_desc (some ub)
          m.undo_offset_x m.undo_offset_y ub.width ub.height
        { m with drawable := d, undo_buffer := none }

/-- gimp_image_map_clear (gimpimagemap.c): stops idle work; on an attached
drawable with a snapshot buffer, a format mismatch is reported with a
warning and the restore skipped, otherwise the snapshot is copied back over
the drawable at the recorded anchor; the snapshot is released either
way. -/
def gimp_image_map_clear (m : GimpImageMap) : GimpImageMap :=
  let m := gimp_image_map_stop_idle m
  if ¬ m.drawable.attached then m
  else
    match m.undo_buffer with
    | none => m
    | some ub =>
        if ub.format ≠ gimp_drawable_get_format m.drawable then
          { m with
            messages := m.messages ++
              ["image depth change, unable to restore original image"],
            undo_buffer := none }
        else
          let buf := gegl_buffer_copy ub ⟨0, 0, ub.width, ub.height⟩
            m.drawable.buffer m.undo_offset_x m.undo_offset_y
          { m with drawable := { m.drawable with buffer := buf },
                   undo_buffer := none }

/-- gimp_image_map_abort (gimpimagemap.c): stop idle work, then clear when
the drawable is still attached. -/
def gimp_image_map_abort (m : GimpImageMap) : GimpImageMap :=
  let m := gimp_image_map_stop_idle m
  if ¬ m.drawable.attached then m
  else gimp_image_map_clear m

/-- gimp_image_map_get_pixel_at (gimpimagemap.c): inside the drawable's
bounds and inside the snapshot rectangle the snapshot is sampled; inside
the bounds but outside the snapshot the drawable's own pixel is returned;
outside the bounds there is no pixel. -/
def gimp_image_map_get_pixel_at (m : GimpImageMap) (px py : Int) :
    Option Pixel :=
  if 0 ≤ px ∧ px < m.drawable.buffer.width ∧
     0 ≤ py ∧ py < m.drawable.buffer.height then
    match m.undo_buffer with
    | some ub =>
        if m.undo_offset_x ≤ px ∧ px < m.undo_offset_x + ub.width ∧
           m.undo_offset_y ≤ py ∧ py < m.undo_offset_y + ub.height then
          some (gegl_buffer_sample ub (px - m.undo_offset_x)
            (py - m.undo_offset_y))
        else gimp_drawable_get_pixel_at m.drawable px py
    | none => gimp_drawable_get_pixel_at m.drawable px py
  else none

/-- Example image with no active selection. -/
def exImage : GimpImage :=
  { mask_empty := true, sel := fun _ _ => false,
    sel_x := 0, sel_y := 0, sel_width := 0, sel_height := 0,
    floating_selection := none, undo_stack := [] }

/-- Example 4×3 buffer with distinguishable pixel values. -/
def exBuffer : GeglBuffer :=
  { width := 4, height := 3, format := 7, data := fun px py => 10 * px + py }

/-- Example attached, visible drawable. -/
def exDrawable : GimpDrawable :=
  { buffer := exBuffer, offset_x := 0, offset_y := 0,
    attached := true, visible := true, image := exImage,
    floating_sel := none, source_node := none, node := none }

/-- Example image map with no session state yet. -/
def exMap : GimpImageMap :=
  { drawable := exDrawable, undo_desc := "filter", undo_buffer := none,
    undo_offset_x := 0, undo_offset_y := 0, idle_id := false,
    proc_rect := none, pending := [], messages := [] }

/-- Example filter output buffer (constant 99). -/
def exShadow : GeglBuffer :=
  { width := 4, height := 3, format := 7, data := fun _ _ => 99 }

/-- Example completed chunk covering (0,0)-(1,1). -/
def exChunk : Chunk := { shadow := exShadow, extent := ⟨0, 0, 2, 2⟩ }

/-- Example snapshot buffer, 2x2. -/
def exUndoBuf : GeglBuffer :=
  { width := 2, height := 2, format := 7, data := fun px py => 500 + 10 * px + py }

/-- Example image map holding a snapshot anchored at (1,1). -/
def exMapU : GimpImageMap :=
  { exMap with undo_buffer := some exUndoBuf, undo_offset_x := 1, undo_offset_y := 1 }

/-- Example image map on a detached drawable. -/
def exMapDetached : GimpImageMap :=
  { exMap with drawable := { exDrawable with attached := false } }

/-- Example image map whose snapshot's format (8) differs from the
drawable's (7). -/
def exMapBadFmt : GimpImageMap :=
  { exMap with undo_buffer := some { exUndoBuf with format := 8 } }

/-- Example image with a non-empty selection: only (0,0) is selected, with
bounding box (0,0)-(1,1). -/
def exImageSel : GimpImage :=
  { exImage with
    mask_empty := false,
    sel := (fun px py => px == 0 && py == 0),
    sel_width := 2, sel_height := 2 }

/-- Example drawable under the non-empty selection. -/
def exDrawableSel : GimpDrawable := { exDrawable with image := exImageSel }

/-- Example image map over the selected drawable. -/
def exMapSel : GimpImageMap := { exMap with drawable := exDrawableSel }

/-- Example floating-selection layer at offset (10,20). -/
def exLayer : GimpLayer :=
  { offset_x := 10, offset_y := 20, width := 2, height := 2,
    mode := 3, opacity := 5, layer_offset_node := true }

/-- A second floating-selection layer, offset (1,2). -/
def exLayer2 : GimpLayer :=
  { offset_x := 1, offset_y := 2, width := 3, height := 3,
    mode := 0, opacity := 9, layer_offset_node := false }

/-- Example instantiated source node graph without the fs triple. -/
def exSourceNode : SourceNode := { fs_nodes := none, output_from_fs := false }

/-- Example drawable with a bound floating selection and an instantiated
source node graph. -/
def exDrawableFs : GimpDrawable :=
  { exDrawable with floating_sel := some exLayer, source_node := some exSourceNode }

/-- Example visible drawable with an instantiated item node graph. -/
def exDrawableNode : GimpDrawable :=
  { exDrawable with node := some (gimp_drawable_node_topology true) }

/-- A snapshot buffer anchored at `rect` whose content agrees with the
original pixel data `d0data` on all of `rect`. -/
def snapGood (d0data : Int → Int → Pixel) (rect : GeglRectangle)
    (m : GimpImageMap) : Prop :=
  ∃ ub, m.undo_buffer = some ub ∧
    m.undo_offset_x = rect.x ∧ m.undo_offset_y = rect.y ∧
    ∀ px py, inRect rect px py →
      ub.data (px - rect.x) (py - rect.y) = d0data px py

/-- Unselected pixels still hold their original values. -/
def selUntouched (d0data : Int → Int → Pixel) (m : GimpImageMap) : Prop :=
  ∀ px py, m.drawable.image.sel px py = false →
    m.drawable.buffer.data px py = d0data px py

/-- Invariant maintained over an incremental run under a non-empty
selection: the drawable is attached, the mask is non-empty, the snapshot
holds the original pixels of `rect`, all pending chunks lie inside `rect`,
and unselected pixels are untouched. -/
def previewInv (d0data : Int → Int → Pixel) (rect : GeglRectangle)
    (m : GimpImageMap) : Prop :=
  m.drawable.attached = true ∧
  m.drawable.image.mask_empty = false ∧
  snapGood d0data rect m ∧
  (∀ c ∈ m.pending, rectInside c.extent rect) ∧
  selUntouched d0data m

/-- The components of an image-map state that chunk processing never
touches: the snapshot buffer and its anchor, the undo description, and the
drawable's attachment, image and buffer shape. -/
def sview (m : GimpImageMap) :
    Option GeglBuffer × Int × Int × String × Bool × GimpImage × Nat × Int × Int :=
  (m.undo_buffer, m.undo_offset_x, m.undo_offset_y, m.undo_desc,
   m.drawable.attached, m.drawable.image, m.drawable.buffer.format,
   m.drawable.buffer.width, m.drawable.buffer.height)

lemma sview_data_written (m : GimpImageMap) (c : Chunk) :
    sview (gimp_image_map_data_written m c) = sview m := by
  unfold gimp_image_map_data_written gimp_drawable_apply_buffer
    gegl_buffer_copy sview
  cases hm : m.drawable.image.mask_empty <;>
    cases hub : m.undo_buffer <;>
    by_cases ha : m.drawable.attached <;>
    simp [hm, hub, ha]

lemma sview_do (m : GimpImageMap) :
    sview (gimp_image_map_do m).1 = sview m := by
  unfold gimp_image_map_do
  by_cases ha : m.drawable.attached
  · rw [if_neg (by simp [ha])]
    cases hp : m.pending with
    | nil => rfl
    | cons c rest =>
        cases rest with
        | nil => exact sview_data_written m c
        | cons c2 rest2 => exact sview_data_written m c
  · rw [if_pos (by simp [ha])]
    rfl

lemma sview_doN (k : Nat) (m : GimpImageMap) :
    sview (gimp_image_map_doN k m) = sview m := by
  induction k generalizing m with
  | zero => rfl
  | succ k ih =>
      calc sview (gimp_image_map_doN (k + 1) m)
          = sview (gimp_image_map_doN k (gimp_image_map_do m).1) := rfl
        _ = sview (gimp_image_map_do m).1 := ih _
        _ = sview m := sview_do m

lemma sview_drain_fuel (f : Nat) (m : GimpImageMap) :
    sview (gimp_image_map_drain_fuel f m) = sview m := by
  induction f generalizing m with
  | zero => rfl
  | succ f ih =>
      unfold gimp_image_map_drain_fuel
      by_cases hmore : (gimp_image_map_do m).2
      · simp only [hmore, if_pos]
        calc sview (gimp_image_map_drain_fuel f (gimp_image_map_do m).1)
            = sview (gimp_image_map_do m).1 := ih _
          _ = sview m := sview_do m
      · simp only [hmore, if_neg, Bool.false_eq_true, not_false_iff]
        exact sview_do m

lemma sview_drain (m : GimpImageMap) :
    sview (gimp_image_map_drain m) = sview m :=
  sview_drain_fuel _ m

/-- Chunk processing does not touch the pending list beyond popping. -/
lemma data_written_pending (m : GimpImageMap) (c : Chunk) :
    (gimp_image_map_data_written m c).pending = m.pending := by
  unfold gimp_image_map_data_written gimp_drawable_apply_buffer
  cases hm : m.drawable.image.mask_empty <;>
    cases hub : m.undo_buffer <;>
    by_cases ha : m.drawable.attached <;>
    simp [hm, hub, ha]

/-- A true step of the idle worker strictly shrinks the pending list. -/
lemma do_true_pending (m : GimpImageMap)
    (h : (gimp_image_map_do m).2 = true) :
    (gimp_image_map_do m).1.pending.length < m.pending.length := by
  unfold gimp_image_map_do at h ⊢
  by_cases ha : m.drawable.attached
  · rw [if_neg (by simp [ha])] at h ⊢
    cases hp : m.pending with
    | nil => rw [hp] at h; simp at h
    | cons c rest =>
        cases rest with
        | nil => rw [hp] at h; simp at h
        | cons c2 rest2 => simp
  · rw [if_pos (by simp [ha])] at h; simp at h

/-- After a false step of the idle worker the idle source is removed. -/
lemma do_false_idle (m : GimpImageMap)
    (h : (gimp_image_map_do m).2 = false) :
    (gimp_image_map_do m).1.idle_id = false := by
  unfold gimp_image_map_do at h ⊢
  by_cases ha : m.drawable.attached
  · rw [if_neg (by simp [ha])] at h ⊢
    cases hp : m.pending with
    | nil => rfl
    | cons c rest =>
        cases rest with
        | nil => rfl
        | cons c2 rest2 => rw [hp] at h; simp at h
  · rw [if_pos (by simp [ha])]

/-- With enough fuel, the drain loop always ends with the idle source
removed. -/
lemma drain_fuel_idle (f : Nat) (m : GimpImageMap)
    (hf : m.pending.length < f) :
    (gimp_image_map_drain_fuel f m).idle_id = false := by
  induction f generalizing m with
  | zero => omega
  | succ f ih =>
      unfold gimp_image_map_drain_fuel
      by_cases hmore : (gimp_image_map_do m).2
      · simp only [hmore, if_pos]
        exact ih _ (by
          have := do_true_pending m hmore
          omega)
      · have hb : (gimp_image_map_do m).2 = false := by
          simpa using hmore
        simp only [hb]
        simpa using do_false_idle m hb

lemma drain_idle (m : GimpImageMap) :
    (gimp_image_map_drain m).idle_id = false :=
  drain_fuel_idle _ m (Nat.lt_succ_self _)

lemma sview_eq_components {m m' : GimpImageMap} (h : sview m' = sview m) :
    m'.undo_buffer = m.undo_buffer ∧ m'.undo_offset_x = m.undo_offset_x ∧
    m'.undo_offset_y = m.undo_offset_y ∧ m'.undo_desc = m.undo_desc ∧
    m'.drawable.attached = m.drawable.attached ∧
    m'.drawable.image = m.drawable.image ∧
    m'.drawable.buffer.format = m.drawable.buffer.format ∧
    m'.drawable.buffer.width = m.drawable.buffer.width ∧
    m'.drawable.buffer.height = m.drawable.buffer.height := by
  simpa [sview, Prod.ext_iff] using h

/-- A first apply on a fresh session: the drawable is untouched, the
snapshot buffer is a copy of the drawable's pixels in the clamped region
anchored at the region's origin, and the worker is scheduled over that
region. -/
lemma apply_fresh_fields (m : GimpImageMap) (plan : List Chunk)
    (v : GeglRectangle) (rect : GeglRectangle)
    (hatt : m.drawable.attached = true)
    (hfresh : m.undo_buffer = none)
    (hmask : gimp_item_mask_intersect m.drawable = some rect) :
    (gimp_image_map_apply m plan v).drawable = m.drawable ∧
    (gimp_image_map_apply m plan v).undo_buffer =
      some (gegl_buffer_copy m.drawable.buffer rect
        (gegl_buffer_new rect.width rect.height m.drawable.buffer.format) 0 0) ∧
    (gimp_image_map_apply m plan v).undo_offset_x = rect.x ∧
    (gimp_image_map_apply m plan v).undo_offset_y = rect.y ∧
    (gimp_image_map_apply m plan v).idle_id = true ∧
    (gimp_image_map_apply m plan v).pending = plan ∧
    (gimp_image_map_apply m plan v).proc_rect = some rect := by
  unfold gimp_image_map_apply gimp_image_map_stop_idle
    gimp_image_map_update_undo_buffer gimp_drawable_get_format
  by_cases hi : m.idle_id <;> simp [hi, hatt, hfresh, hmask]

/-- Inside the snapshot rectangle, clear restores the snapshot's pixel when
the formats agree and the drawable is attached. -/
lemma clear_data (m : GimpImageMap) (ub : GeglBuffer)
    (hatt : m.drawable.attached = true)
    (hub : m.undo_buffer = some ub)
    (hfmt : ub.format = m.drawable.buffer.format)
    (x y : Int)
    (hin : m.undo_offset_x ≤ x ∧ x < m.undo_offset_x + ub.width ∧
           m.undo_offset_y ≤ y ∧ y < m.undo_offset_y + ub.height) :
    (gimp_image_map_clear m).drawable.buffer.data x y =
      ub.data (x - m.undo_offset_x) (y - m.undo_offset_y) := by
  unfold gimp_image_map_clear gimp_image_map_stop_idle
    gimp_drawable_get_format gegl_buffer_copy
  by_cases hi : m.idle_id <;>
    simp [hi, hatt, hub, hfmt, hin.1, hin.2.1, hin.2.2.1, hin.2.2.2]

/-- The snapshot taken at apply time, read back through its own
coordinates, gives the original drawable pixel. -/
lemma copy_fresh_at (src : GeglBuffer) (rect : GeglRectangle) (fmt : Nat)
    (x y : Int)
    (hx1 : rect.x ≤ x) (hx2 : x < rect.x + rect.width)
    (hy1 : rect.y ≤ y) (hy2 : y < rect.y + rect.height) :
    (gegl_buffer_copy src rect
        (gegl_buffer_new rect.width rect.height fmt) 0 0).data
      (x - rect.x) (y - rect.y) = src.data x y := by
  simp only [gegl_buffer_copy, gegl_buffer_new]
  rw [if_pos (by omega)]
  have ex : rect.x + (x - rect.x - 0) = x := by ring
  have ey : rect.y + (y - rect.y - 0) = y := by ring
  rw [ex, ey]

/-- Claim C1: for every drawable and filter, apply over a region followed by
clear restores the drawable's pixel buffer bit-for-bit for every pixel of
the processed region: the snapshot copied by
gimp_image_map_update_undo_buffer at apply time is copied back at the
recorded anchor by gimp_image_map_clear, the pixel format being unchanged
and the drawable still attached along the trace. -/
theorem C1_roundtrip_restore (m0 : GimpImageMap) (plan : List Chunk)
    (v : GeglRectangle) (k : Nat) (rect : GeglRectangle) (x y : Int)
    (hatt : m0.drawable.attached = true)
    (hfresh : m0.undo_buffer = none)
    (hmask : gimp_item_mask_intersect m0.drawable = some rect)
    (hxy : inRect rect x y) :
    (gimp_image_map_clear
        (gimp_image_map_doN k
          (gimp_image_map_apply m0 plan v))).drawable.buffer.data x y =
      m0.drawable.buffer.data x y := by
  obtain ⟨ha1, ha2, ha3, ha4, _, _, _⟩ :=
    apply_fresh_fields m0 plan v rect hatt hfresh hmask
  obtain ⟨h1, h2, h3, _, h5, _, h7, _, _⟩ :=
    sview_eq_components (sview_doN k (gimp_image_map_apply m0 plan v))
  obtain ⟨hx1, hx2, hy1, hy2⟩ := hxy
  rw [clear_data (gimp_image_map_doN k (gimp_image_map_apply m0 plan v))
    (gegl_buffer_copy m0.drawable.buffer rect
      (gegl_buffer_new rect.width rect.height m0.drawable.buffer.format) 0 0)
    (by rw [h5, ha1]; exact hatt)
    (by rw [h1, ha2])
    (by rw [h7, ha1]; rfl)
    x y
    (by
      refine ⟨?_, ?_, ?_, ?_⟩ <;>
        simp only [h2, h3, ha3, ha4, gegl_buffer_copy, gegl_buffer_new] <;>
        omega)]
  rw [h2, h3, ha3, ha4]
  exact copy_fresh_at m0.drawable.buffer rect m0.drawable.buffer.format x y
    hx1 hx2 hy1 hy2

/-- Witness for C1 at a concrete state: an empty-selection 4×3 drawable,
one processed chunk, restore at (1,1). -/
theorem C1_roundtrip_restore_witness :
    (gimp_image_map_clear
        (gimp_image_map_doN 1
          (gimp_image_map_apply exMap [exChunk] ⟨0, 0, 1, 1⟩))).drawable.buffer.data 1 1 =
      exMap.drawable.buffer.data 1 1 :=
  C1_roundtrip_restore exMap [exChunk] ⟨0, 0, 1, 1⟩ 1 ⟨0, 0, 4, 3⟩ 1 1
    rfl rfl (by decide) (by decide)

/-- Claim C9: the rectangle argument of gimp_image_map_apply has no
influence on behaviour — for the same image-map state and chunk schedule,
apply with any two rectangle arguments yields identical states (snapshot,
processing region, and pixels), because the argument is never read. -/
theorem C9_rect_argument_ignored (m : GimpImageMap) (plan : List Chunk)
    (v1 v2 : GeglRectangle) :
    gimp_image_map_apply m plan v1 = gimp_image_map_apply m plan v2 := rfl

/-- Claim C4: gimp_image_map_apply processes exactly the region clamped by
gimp_item_mask_intersect (the intersection of the drawable's bounds with
the selection's bounding box); when the drawable is detached or the
intersection is empty it returns having done nothing beyond descheduling:
the drawable and snapshot buffer are untouched and no work is scheduled. -/
theorem C4_empty_region_noop (m : GimpImageMap) (plan : List Chunk)
    (v : GeglRectangle) :
    (m.drawable.attached = true →
      ∀ rect, gimp_item_mask_intersect m.drawable = some rect →
        (gimp_image_map_apply m plan v).proc_rect = some rect ∧
        (gimp_image_map_apply m plan v).idle_id = true) ∧
    ((m.drawable.attached = false ∨
        gimp_item_mask_intersect m.drawable = none) →
      gimp_image_map_apply m plan v = gimp_image_map_stop_idle m ∧
      (gimp_image_map_apply m plan v).drawable = m.drawable ∧
      (gimp_image_map_apply m plan v).undo_buffer = m.undo_buffer ∧
      (gimp_image_map_apply m plan v).idle_id = false) := by
  constructor
  · intro hatt rect hrect
    by_cases hi : m.idle_id <;>
      simp [gimp_image_map_apply, gimp_image_map_stop_idle, hi, hatt, hrect]
  · intro h
    have key : gimp_image_map_apply m plan v = gimp_image_map_stop_idle m := by
      rcases h with hatt | hmask
      · by_cases hi : m.idle_id <;>
          simp [gimp_image_map_apply, gimp_image_map_stop_idle, hi, hatt]
      · by_cases hi : m.idle_id <;> by_cases hatt : m.drawable.attached <;>
          simp [gimp_image_map_apply, gimp_image_map_stop_idle, hi, hatt, hmask]
    refine ⟨key, ?_, ?_, ?_⟩ <;> rw [key] <;>
      by_cases hi : m.idle_id <;> simp [gimp_image_map_stop_idle, hi]

/-- Witness for C4: with an empty selection the processed region is the
full 4×3 bounds whatever rectangle is passed; on a detached drawable apply
degrades to stop_idle. -/
theorem C4_empty_region_noop_witness :
    (gimp_image_map_apply exMap [] ⟨5, 5, 1, 1⟩).proc_rect =
      some ⟨0, 0, 4, 3⟩ ∧
    gimp_image_map_apply exMapDetached [] ⟨0, 0, 1, 1⟩ =
      gimp_image_map_stop_idle exMapDetached :=
  ⟨((C4_empty_region_noop exMap [] ⟨5, 5, 1, 1⟩).1 rfl ⟨0, 0, 4, 3⟩ (by decide)).1,
   ((C4_empty_region_noop exMapDetached [] ⟨0, 0, 1, 1⟩).2 (Or.inl rfl)).1⟩

/-- Claim C6: when at clear time the snapshot's format differs from the
drawable's current format, gimp_image_map_clear emits the warning message,
skips the restore (the drawable is untouched), and still releases the
snapshot buffer. -/
theorem C6_format_mismatch_guard (m : GimpImageMap) (ub : GeglBuffer)
    (hatt : m.drawable.attached = true)
    (hub : m.undo_buffer = some ub)
    (hfmt : ub.format ≠ gimp_drawable_get_format m.drawable) :
    (gimp_image_map_clear m).drawable = m.drawable ∧
    (gimp_image_map_clear m).undo_buffer = none ∧
    (gimp_image_map_clear m).messages =
      m.messages ++ ["image depth change, unable to restore original image"] := by
  by_cases hi : m.idle_id <;>
    simp [gimp_image_map_clear, gimp_image_map_stop_idle, hi, hatt, hub, hfmt]

/-- Witness for C6 with a format-8 snapshot over a format-7 drawable. -/
theorem C6_format_mismatch_guard_witness :
    (gimp_image_map_clear exMapBadFmt).drawable = exMapBadFmt.drawable ∧
    (gimp_image_map_clear exMapBadFmt).undo_buffer = none ∧
    (gimp_image_map_clear exMapBadFmt).messages =
      exMapBadFmt.messages ++
        ["image depth change, unable to restore original image"] :=
  C6_format_mismatch_guard exMapBadFmt { exUndoBuf with format := 8 }
    rfl rfl (by decide)

/-- Claim C8: attaching a floating selection to a target that already has
one bound fails on the precondition check before any mutation — the whole
drawable state (existing binding, graph, image floating-selection
reference) is returned unchanged. -/
theorem C8_attach_precondition (d : GimpDrawable) (fs0 fs : GimpLayer)
    (hbound : d.floating_sel = some fs0) :
    gimp_drawable_attach_floating_sel d fs = d := by
  unfold gimp_drawable_attach_floating_sel gimp_drawable_get_floating_sel
  by_cases ha : d.attached <;> simp [ha, hbound]

/-- Witness for C8: attaching a second layer to a target already holding
one leaves the target unchanged. -/
theorem C8_attach_precondition_witness :
    gimp_drawable_attach_floating_sel exDrawableFs exLayer2 = exDrawableFs :=
  C8_attach_precondition exDrawableFs exLayer exLayer2 rfl

/-- Counterexample to claim C2: with the target at offset (0,0) and the
overlay at offset (10,20), the synced crop origin is (-10,-20) — the code
sets it to target_offset − overlay_offset — and not
overlay_offset − target_offset = (10,20) as the claim states. -/
theorem C2_crop_origin_counterexample :
    (gimp_drawable_sync_source_node exDrawableFs false).fsCropOrigin =
      some (-10, -20) ∧
    ¬ ((gimp_drawable_sync_source_node exDrawableFs false).fsCropOrigin =
        some (exLayer.offset_x - exDrawableFs.offset_x,
              exLayer.offset_y - exDrawableFs.offset_y)) := by
  decide

/-- Claim C2 as amended: when an overlay is bound and the graph is synced,
the crop node's origin is target_offset − overlay_offset (componentwise),
its size is the target drawable's dimensions, and the translate node's
parameters are overlay_offset − target_offset. -/
theorem C2_overlay_sync_amended (d : GimpDrawable) (fs : GimpLayer)
    (sn : SourceNode)
    (hfs : d.floating_sel = some fs)
    (hsn : d.source_node = some sn) :
    (gimp_drawable_sync_source_node d false).fsCropOrigin =
      some (d.offset_x - fs.offset_x, d.offset_y - fs.offset_y) ∧
    (gimp_drawable_sync_source_node d false).fsCropSize =
      some (d.buffer.width, d.buffer.height) ∧
    (gimp_drawable_sync_source_node d false).fsTranslate =
      some (fs.offset_x - d.offset_x, fs.offset_y - d.offset_y) := by
  unfold gimp_drawable_sync_source_node GimpDrawable.fsCropOrigin
    GimpDrawable.fsCropSize GimpDrawable.fsTranslate
  simp [hfs, hsn]

/-- Witness for the amended C2 at the concrete overlay binding. -/
theorem C2_overlay_sync_amended_witness :
    (gimp_drawable_sync_source_node exDrawableFs false).fsCropOrigin =
      some (exDrawableFs.offset_x - exLayer.offset_x,
            exDrawableFs.offset_y - exLayer.offset_y) ∧
    (gimp_drawable_sync_source_node exDrawableFs false).fsCropSize =
      some (exDrawableFs.buffer.width, exDrawableFs.buffer.height) ∧
    (gimp_drawable_sync_source_node exDrawableFs false).fsTranslate =
      some (exLayer.offset_x - exDrawableFs.offset_x,
            exLayer.offset_y - exDrawableFs.offset_y) :=
  C2_overlay_sync_amended exDrawableFs exLayer exSourceNode rfl rfl

/-- Claim C7: with an instantiated node graph in the canonical visible
topology, hiding the drawable rewires the input proxy directly to the
output proxy (mode node bypassed, its input disconnected), and showing it
again reconnects input → mode node → output, restoring the drawable state
exactly. -/
theorem C7_visibility_toggle (d : GimpDrawable) (n : ItemNode)
    (hnode : d.node = some n)
    (hvis : d.visible = true)
    (hcanon : n = gimp_drawable_node_topology true) :
    (gimp_item_set_visible d false).node =
      some { mode_input := none, output_input := some PadSrc.inputProxy } ∧
    gimp_item_set_visible (gimp_item_set_visible d false) true = d := by
  constructor
  · unfold gimp_item_set_visible gimp_drawable_visibility_changed
    simp [hnode]
  · unfold gimp_item_set_visible gimp_drawable_visibility_changed
    simp only [hnode]
    cases d with
    | mk buffer ox oy att vis img fs sn nd =>
        simp_all [gimp_drawable_node_topology]

/-- Witness for C7 on the concrete drawable with a canonical visible
graph. -/
theorem C7_visibility_toggle_witness :
    (gimp_item_set_visible exDrawableNode false).node =
      some { mode_input := none, output_input := some PadSrc.inputProxy } ∧
    gimp_item_set_visible (gimp_item_set_visible exDrawableNode false) true =
      exDrawableNode :=
  C7_visibility_toggle exDrawableNode (gimp_drawable_node_topology true)
    rfl rfl rfl

/-- In-bounds sampling of a drawable returns its buffer pixel. -/
lemma get_pixel_at_in_bounds (d : GimpDrawable) (x y : Int)
    (h1 : 0 ≤ x) (h2 : x < d.buffer.width)
    (h3 : 0 ≤ y) (h4 : y < d.buffer.height) :
    gimp_drawable_get_pixel_at d x y = some (d.buffer.data x y) := by
  unfold gimp_drawable_get_pixel_at gegl_buffer_sample
  rw [if_neg (by omega)]

/-- Claim C10: while a snapshot buffer is held, gimp_image_map_get_pixel_at
returns the snapshot pixel for coordinates inside both the drawable's
bounds and the snapshot rectangle, the drawable's live pixel for in-bounds
coordinates outside the snapshot rectangle, and no pixel at all outside the
drawable's bounds. -/
theorem C10_get_pixel_at (m : GimpImageMap) (ub : GeglBuffer) (x y : Int)
    (hub : m.undo_buffer = some ub) :
    ((0 ≤ x ∧ x < m.drawable.buffer.width ∧
      0 ≤ y ∧ y < m.drawable.buffer.height) →
      (m.undo_offset_x ≤ x ∧ x < m.undo_offset_x + ub.width ∧
       m.undo_offset_y ≤ y ∧ y < m.undo_offset_y + ub.height) →
      gimp_image_map_get_pixel_at m x y =
        some (gegl_buffer_sample ub (x - m.undo_offset_x)
          (y - m.undo_offset_y))) ∧
    ((0 ≤ x ∧ x < m.drawable.buffer.width ∧
      0 ≤ y ∧ y < m.drawable.buffer.height) →
      ¬ (m.undo_offset_x ≤ x ∧ x < m.undo_offset_x + ub.width ∧
         m.undo_offset_y ≤ y ∧ y < m.undo_offset_y + ub.height) →
      gimp_image_map_get_pixel_at m x y =
        some (m.drawable.buffer.data x y)) ∧
    (¬ (0 ≤ x ∧ x < m.drawable.buffer.width ∧
        0 ≤ y ∧ y < m.drawable.buffer.height) →
      gimp_image_map_get_pixel_at m x y = none) := by
  refine ⟨?_, ?_, ?_⟩
  · intro h1 h2
    obtain ⟨a1, a2, a3, a4⟩ := h1
    simp [gimp_image_map_get_pixel_at, hub, a1, a2, a3, a4, h2]
  · intro h1 h2
    obtain ⟨a1, a2, a3, a4⟩ := h1
    simp [gimp_image_map_get_pixel_at, hub, a1, a2, a3, a4, h2,
      get_pixel_at_in_bounds m.drawable x y a1 a2 a3 a4]
  · intro h1
    simp [gimp_image_map_get_pixel_at, h1]

/-- Witness for C10: snapshot hit at (1,1), live pixel at (0,0), no pixel
at (9,0). -/
theorem C10_get_pixel_at_witness :
    gimp_image_map_get_pixel_at exMapU 1 1 =
      some (gegl_buffer_sample exUndoBuf (1 - exMapU.undo_offset_x)
        (1 - exMapU.undo_offset_y)) ∧
    gimp_image_map_get_pixel_at exMapU 0 0 =
      some (exMapU.drawable.buffer.data 0 0) ∧
    gimp_image_map_get_pixel_at exMapU 9 0 = none :=
  ⟨(C10_get_pixel_at exMapU exUndoBuf 1 1 rfl).1 (by decide) (by decide),
   (C10_get_pixel_at exMapU exUndoBuf 0 0 rfl).2.1 (by decide) (by decide),
   (C10_get_pixel_at exMapU exUndoBuf 9 0 rfl).2.2 (by decide)⟩

/-- Pushing an undo record only touches the image's undo stack: the
drawable's attachment is unchanged. -/
lemma push_undo_attached (d : GimpDrawable) (desc : String)
    (b : Option GeglBuffer) (x y w h : Int) :
    (gimp_drawable_push_undo d desc b x y w h).attached = d.attached := by
  unfold gimp_drawable_push_undo gimp_drawable_real_push_undo
  by_cases ha : d.attached
  · cases b with
    | none =>
        cases hri : gimp_rectangle_intersect x y w h 0 0
            d.buffer.width d.buffer.height <;> simp [ha, hri]
    | some bb => simp [ha]
  · simp [ha]

/-- Pushing an undo record leaves the drawable's buffer unchanged. -/
lemma push_undo_buffer (d : GimpDrawable) (desc : String)
    (b : Option GeglBuffer) (x y w h : Int) :
    (gimp_drawable_push_undo d desc b x y w h).buffer = d.buffer := by
  unfold gimp_drawable_push_undo gimp_drawable_real_push_undo
  by_cases ha : d.attached
  · cases b with
    | none =>
        cases hri : gimp_rectangle_intersect x y w h 0 0
            d.buffer.width d.buffer.height <;> simp [ha, hri]
    | some bb => simp [ha]
  · simp [ha]

/-- After commit the idle worker is always unscheduled. -/
lemma commit_idle (m : GimpImageMap) :
    (gimp_image_map_commit m).idle_id = false := by
  unfold gimp_image_map_commit
  by_cases hi : m.idle_id
  · have hd := drain_idle { m with idle_id := false }
    by_cases ha :
        (gimp_image_map_drain { m with idle_id := false }).drawable.attached
    · cases hu :
          (gimp_image_map_drain { m with idle_id := false }).undo_buffer <;>
        simp [hi, ha, hu, hd]
    · simp [hi, ha, hd]
  · by_cases ha : m.drawable.attached
    · cases hu : m.undo_buffer <;> simp [hi, ha, hu]
    · simp [hi, ha]

/-- Commit does not change whether the drawable is attached. -/
lemma commit_attached (m : GimpImageMap) :
    (gimp_image_map_commit m).drawable.attached = m.drawable.attached := by
  unfold gimp_image_map_commit
  by_cases hi : m.idle_id
  · obtain ⟨_, _, _, _, h5, _, _, _, _⟩ :=
      sview_eq_components (sview_drain { m with idle_id := false })
    by_cases ha : m.drawable.attached
    · have had :
          (gimp_image_map_drain
            { m with idle_id := false }).drawable.attached = true := by
        rw [h5]; exact ha
      cases hu :
          (gimp_image_map_drain { m with idle_id := false }).undo_buffer <;>
        simp [hi, ha, had, hu, h5, push_undo_attached]
    · have ha2 : m.drawable.attached = false := by simpa using ha
      have had :
          (gimp_image_map_drain
            { m with idle_id := false }).drawable.attached = false := by
        rw [h5]; exact ha2
      simp [hi, had, h5, ha2]
  · by_cases ha : m.drawable.attached
    · cases hu : m.undo_buffer <;> simp [hi, ha, hu, push_undo_attached]
    · simp [hi, ha]

/-- On an attached drawable, commit always releases the snapshot buffer. -/
lemma commit_undo_none (m : GimpImageMap)
    (hatt : m.drawable.attached = true) :
    (gimp_image_map_commit m).undo_buffer = none := by
  unfold gimp_image_map_commit
  by_cases hi : m.idle_id
  · obtain ⟨_, _, _, _, h5, _, _, _, _⟩ :=
      sview_eq_components (sview_drain { m with idle_id := false })
    have ha :
        (gimp_image_map_drain { m with idle_id := false }).drawable.attached =
          true := by rw [h5]; exact hatt
    cases hu :
        (gimp_image_map_drain { m with idle_id := false }).undo_buffer <;>
      simp [hi, ha, hu]
  · cases hu : m.undo_buffer <;> simp [hi, hatt, hu]

/-- Commit is the identity on a state with no scheduled worker and (when
attached) no snapshot buffer. -/
lemma commit_noop (m : GimpImageMap)
    (hidle : m.idle_id = false)
    (h : m.drawable.attached = true → m.undo_buffer = none) :
    gimp_image_map_commit m = m := by
  unfold gimp_image_map_commit
  by_cases ha : m.drawable.attached
  · simp [hidle, ha, h ha]
  · simp [hidle, ha]

/-- Claim C5: committing twice in a row equals committing once — after the
first commit the snapshot buffer is gone (and the worker unscheduled), so
the second call pushes no undo record and changes nothing. -/
theorem C5_commit_idempotent (m : GimpImageMap) :
    gimp_image_map_commit (gimp_image_map_commit m) =
      gimp_image_map_commit m :=
  commit_noop _ (commit_idle m) (fun hatt =>
    commit_undo_none m (by rw [commit_attached m] at hatt; exact hatt))

lemma inRect_of_inside {a b : GeglRectangle} {px py : Int}
    (h : rectInside a b) (hin : inRect a px py) : inRect b px py := by
  obtain ⟨h1, h2, h3, h4⟩ := h
  obtain ⟨k1, k2, k3, k4⟩ := hin
  exact ⟨by omega, by omega, by omega, by omega⟩

/-- Pointwise behaviour of gimp_image_map_data_written inside the chunk
rectangle: covered pixels (empty mask, or selected) take the filter's
shadow-buffer output; uncovered pixels take the snapshot value. -/
lemma data_written_data_in (m : GimpImageMap) (ub : GeglBuffer) (c : Chunk)
    (px py : Int)
    (hub : m.undo_buffer = some ub)
    (hatt : m.drawable.attached = true)
    (hin : inRect c.extent px py) :
    (gimp_image_map_data_written m c).drawable.buffer.data px py =
      if m.drawable.image.mask_empty = true ∨
         m.drawable.image.sel px py = true
      then c.shadow.data px py
      else ub.data (px - m.undo_offset_x) (py - m.undo_offset_y) := by
  obtain ⟨hx1, hx2, hy1, hy2⟩ := hin
  have ex : c.extent.x + (px - c.extent.x) = px := by ring
  have ey : c.extent.y + (py - c.extent.y) = py := by ring
  unfold gimp_image_map_data_written gimp_drawable_apply_buffer
    gegl_buffer_copy
  cases hm : m.drawable.image.mask_empty
  · by_cases hsel : m.drawable.image.sel px py = true
    · simp [hm, hub, hatt, hsel, selCovers, hx1, hx2, hy1, hy2, ex, ey]
    · simp [hm, hub, hatt, hsel, selCovers, hx1, hx2, hy1, hy2]
  · simp [hm, hub, hatt, selCovers, hx1, hx2, hy1, hy2, ex, ey]

/-- Outside the chunk rectangle data_written leaves the drawable's pixels
alone. -/
lemma data_written_data_out (m : GimpImageMap) (c : Chunk) (px py : Int)
    (hout : ¬ inRect c.extent px py) :
    (gimp_image_map_data_written m c).drawable.buffer.data px py =
      m.drawable.buffer.data px py := by
  have h4 : ¬ (c.extent.x ≤ px ∧ px < c.extent.x + c.extent.width ∧
               c.extent.y ≤ py ∧ py < c.extent.y + c.extent.height) := by
    simpa [inRect] using hout
  unfold gimp_image_map_data_written gimp_drawable_apply_buffer
    gegl_buffer_copy
  cases hm : m.drawable.image.mask_empty <;>
    cases hub : m.undo_buffer <;>
    by_cases ha : m.drawable.attached <;>
    simp [hm, hub, ha, h4]

/-- previewInv transfers across states that agree on the session-relevant
fields, with any pending list that still lies inside the region. -/
lemma previewInv_of_eq (d0data : Int → Int → Pixel) (rect : GeglRectangle)
    (m m' : GimpImageMap)
    (h1 : m'.drawable = m.drawable)
    (h2 : m'.undo_buffer = m.undo_buffer)
    (h3 : m'.undo_offset_x = m.undo_offset_x)
    (h4 : m'.undo_offset_y = m.undo_offset_y)
    (h5 : ∀ c ∈ m'.pending, rectInside c.extent rect)
    (hinv : previewInv d0data rect m) : previewInv d0data rect m' := by
  obtain ⟨a, b, ⟨ub, c1, c2, c3, c4⟩, _, f⟩ := hinv
  refine ⟨?_, ?_, ⟨ub, ?_, ?_, ?_, c4⟩, h5, ?_⟩
  · rw [h1]; exact a
  · rw [h1]; exact b
  · rw [h2]; exact c1
  · rw [h3]; exact c2
  · rw [h4]; exact c3
  · intro px py hs
    rw [h1] at hs ⊢
    exact f px py hs

/-- One completed chunk inside the region preserves the run invariant. -/
lemma previewInv_data_written (d0data : Int → Int → Pixel)
    (rect : GeglRectangle) (m : GimpImageMap) (c : Chunk)
    (hinv : previewInv d0data rect m)
    (hc : rectInside c.extent rect) :
    previewInv d0data rect (gimp_image_map_data_written m c) := by
  obtain ⟨hatt, hne, ⟨ub, hub, hox, hoy, hsnap⟩, hpend, hsel⟩ := hinv
  obtain ⟨hsv1, hsv2, hsv3, _, hsv5, hsv6, _, _, _⟩ :=
    sview_eq_components (sview_data_written m c)
  refine ⟨?_, ?_, ⟨ub, ?_, ?_, ?_, hsnap⟩, ?_, ?_⟩
  · rw [hsv5]; exact hatt
  · rw [hsv6]; exact hne
  · rw [hsv1]; exact hub
  · rw [hsv2]; exact hox
  · rw [hsv3]; exact hoy
  · intro c2 hc2
    rw [data_written_pending] at hc2
    exact hpend c2 hc2
  · intro px py hs
    rw [hsv6] at hs
    by_cases hin : inRect c.extent px py
    · rw [data_written_data_in m ub c px py hub hatt hin,
        if_neg (by simp [hne, hs]), hox, hoy]
      exact hsnap px py (inRect_of_inside hc hin)
    · rw [data_written_data_out m c px py hin]
      exact hsel px py hs

/-- One idle step preserves the run invariant. -/
lemma previewInv_do (d0data : Int → Int → Pixel) (rect : GeglRectangle)
    (m : GimpImageMap) (hinv : previewInv d0data rect m) :
    previewInv d0data rect (gimp_image_map_do m).1 := by
  unfold gimp_image_map_do
  rw [if_neg (by simp [hinv.1])]
  cases hp : m.pending with
  | nil =>
      exact previewInv_of_eq d0data rect m _ rfl rfl rfl rfl
        (by
          intro c2 hc2
          exact absurd hc2 (List.not_mem_nil c2)) hinv
  | cons c rest =>
      have hc : rectInside c.extent rect :=
        hinv.2.2.2.1 c (by rw [hp]; exact List.mem_cons_self c rest)
      have hdw := previewInv_data_written d0data rect m c hinv hc
      have hrest : ∀ c2 ∈ rest, rectInside c2.extent rect := by
        intro c2 h2
        exact hinv.2.2.2.1 c2 (by rw [hp]; exact List.mem_cons_of_mem _ h2)
      cases rest with
      | nil =>
          exact previewInv_of_eq d0data rect
            (gimp_image_map_data_written m c) _ rfl rfl rfl rfl
            (by intro c2 hc2; exact hrest c2 hc2) hdw
      | cons c2 rest2 =>
          exact previewInv_of_eq d0data rect
            (gimp_image_map_data_written m c) _ rfl rfl rfl rfl
            (by intro c3 hc3; exact hrest c3 hc3) hdw

lemma previewInv_doN (d0data : Int → Int → Pixel) (rect : GeglRectangle)
    (k : Nat) (m : GimpImageMap) (hinv : previewInv d0data rect m) :
    previewInv d0data rect (gimp_image_map_doN k m) := by
  induction k generalizing m with
  | zero => exact hinv
  | succ k ih => exact ih _ (previewInv_do d0data rect m hinv)

lemma previewInv_drain_fuel (d0data : Int → Int → Pixel)
    (rect : GeglRectangle) (f : Nat) (m : GimpImageMap)
    (hinv : previewInv d0data rect m) :
    previewInv d0data rect (gimp_image_map_drain_fuel f m) := by
  induction f generalizing m with
  | zero => exact hinv
  | succ f ih =>
      unfold gimp_image_map_drain_fuel
      by_cases hmore : (gimp_image_map_do m).2
      · simp only [hmore, if_pos]
        exact ih _ (previewInv_do d0data rect m hinv)
      · simp only [hmore, Bool.false_eq_true, if_neg, not_false_iff]
        exact previewInv_do d0data rect m hinv

lemma previewInv_drain (d0data : Int → Int → Pixel) (rect : GeglRectangle)
    (m : GimpImageMap) (hinv : previewInv d0data rect m) :
    previewInv d0data rect (gimp_image_map_drain m) :=
  previewInv_drain_fuel d0data rect _ m hinv

/-- Under the run invariant, commit leaves every unselected pixel at its
original value (the drain only composes inside the region and the undo
push does not touch pixels). -/
lemma commit_selUntouched (d0data : Int → Int → Pixel)
    (rect : GeglRectangle) (m : GimpImageMap)
    (hinv : previewInv d0data rect m) (x y : Int)
    (hs : m.drawable.image.sel x y = false) :
    (gimp_image_map_commit m).drawable.buffer.data x y = d0data x y := by
  unfold gimp_image_map_commit
  by_cases hi : m.idle_id
  · have hz : previewInv d0data rect { m with idle_id := false } :=
      previewInv_of_eq d0data rect m _ rfl rfl rfl rfl
        (by intro c2 hc2; exact hinv.2.2.2.1 c2 hc2) hinv
    have hdr := previewInv_drain d0data rect _ hz
    obtain ⟨hatt2, _, _, _, hsel2⟩ := hdr
    obtain ⟨_, _, _, _, _, h6, _, _, _⟩ :=
      sview_eq_components (sview_drain { m with idle_id := false })
    have hs2 :
        (gimp_image_map_drain
          { m with idle_id := false }).drawable.image.sel x y = false := by
      rw [h6]; exact hs
    cases hu :
        (gimp_image_map_drain { m with idle_id := false }).undo_buffer with
    | none =>
        simp only [hi, if_pos, hatt2, not_true, if_neg, hu]
        simp [hatt2, hu]
        exact hsel2 x y hs2
    | some ub2 =>
        simp [hi, hatt2, hu, push_undo_buffer]
        exact hsel2 x y hs2
  · obtain ⟨hatt, _, _, _, hsel2⟩ := hinv
    cases hu : m.undo_buffer with
    | none =>
        simp [hi, hatt, hu]
        exact hsel2 x y hs
    | some ub2 =>
        simp [hi, hatt, hu, push_undo_buffer]
        exact hsel2 x y hs

/-- Claim C3: on every completed chunk, with a non-empty selection the
snapshot pixels for the chunk rectangle are copied back first, and in both
selection cases the filter's shadow output is composed at full opacity in
replace mode restricted to the chunk (first conjunct, pointwise); hence
after commit, pixels excluded by the selection are unchanged from their
pre-apply values (second conjunct). -/
theorem C3_selection_containment (m0 : GimpImageMap) (plan : List Chunk)
    (v : GeglRectangle) (k : Nat) (rect : GeglRectangle) (x y : Int)
    (hatt : m0.drawable.attached = true)
    (hfresh : m0.undo_buffer = none)
    (hmask : gimp_item_mask_intersect m0.drawable = some rect)
    (hplan : ∀ c ∈ plan, rectInside c.extent rect)
    (hne : m0.drawable.image.mask_empty = false)
    (hsel : m0.drawable.image.sel x y = false) :
    (∀ (m : GimpImageMap) (ub : GeglBuffer) (c : Chunk) (px py : Int),
        m.undo_buffer = some ub → m.drawable.attached = true →
        inRect c.extent px py →
        (gimp_image_map_data_written m c).drawable.buffer.data px py =
          if m.drawable.image.mask_empty = true ∨
             m.drawable.image.sel px py = true
          then c.shadow.data px py
          else ub.data (px - m.undo_offset_x) (py - m.undo_offset_y)) ∧
    (gimp_image_map_commit
        (gimp_image_map_doN k
          (gimp_image_map_apply m0 plan v))).drawable.buffer.data x y =
      m0.drawable.buffer.data x y := by
  constructor
  · intro m ub c px py hub hatt2 hin
    exact data_written_data_in m ub c px py hub hatt2 hin
  · obtain ⟨ha1, ha2, ha3, ha4, _, ha6, _⟩ :=
      apply_fresh_fields m0 plan v rect hatt hfresh hmask
    have hinv1 : previewInv m0.drawable.buffer.data rect
        (gimp_image_map_apply m0 plan v) := by
      refine ⟨?_, ?_, ⟨_, ha2, ha3, ha4, ?_⟩, ?_, ?_⟩
      · rw [ha1]; exact hatt
      · rw [ha1]; exact hne
      · intro px py hin
        obtain ⟨p1, p2, p3, p4⟩ := hin
        exact copy_fresh_at m0.drawable.buffer rect
          m0.drawable.buffer.format px py p1 p2 p3 p4
      · intro c hc
        rw [ha6] at hc
        exact hplan c hc
      · intro px py hs
        rw [ha1]
    have hinv2 := previewInv_doN m0.drawable.buffer.data rect k _ hinv1
    obtain ⟨_, _, _, _, _, h6, _, _, _⟩ :=
      sview_eq_components
        (sview_doN k (gimp_image_map_apply m0 plan v))
    have hs2 :
        (gimp_image_map_doN k
          (gimp_image_map_apply m0 plan v)).drawable.image.sel x y =
          false := by
      rw [h6, ha1]; exact hsel
    exact commit_selUntouched m0.drawable.buffer.data rect _ hinv2 x y hs2

/-- Witness for C3: pointwise chunk behaviour at (1,1), and end-to-end
selection containment for the unselected pixel (1,1) under the selection
that covers only (0,0). -/
theorem C3_selection_containment_witness :
    ((gimp_image_map_data_written exMapU exChunk).drawable.buffer.data 1 1 =
      if exMapU.drawable.image.mask_empty = true ∨
         exMapU.drawable.image.sel 1 1 = true
      then exChunk.shadow.data 1 1
      else exUndoBuf.data (1 - exMapU.undo_offset_x)
        (1 - exMapU.undo_offset_y)) ∧
    (gimp_image_map_commit
        (gimp_image_map_doN 1
          (gimp_image_map_apply exMapSel [exChunk]
            ⟨0, 0, 9, 9⟩))).drawable.buffer.data 1 1 =
      exMapSel.drawable.buffer.data 1 1 :=
  ⟨(C3_selection_containment exMapSel [exChunk] ⟨0, 0, 9, 9⟩ 1 ⟨0, 0, 2, 2⟩ 1 1
      rfl rfl (by decide) (by decide) rfl (by decide)).1
    exMapU exUndoBuf exChunk 1 1 rfl rfl (by decide),
   (C3_selection_containment exMapSel [exChunk] ⟨0, 0, 9, 9⟩ 1 ⟨0, 0, 2, 2⟩ 1 1
      rfl rfl (by decide) (by decide) rfl (by decide)).2⟩
